import Mathlib

/-!
Verification development for the CapyDeploy Decky agent (Python backend).

This file gives a shallow embedding, in Lean 4, of the parts of the agent
that the verified properties talk about:

* POSIX path normalization and the safe-path validators
  (src/handlers/upload.py and src/tcp_server.py),
* the pairing authority (src/pairing.py),
* protocol-version compatibility and the hub_connected handshake, in both
  the dispatched inline form (src/ws_server.py) and the refactored module
  form (src/handlers/auth.py),
* upload sessions and the chunk-write paths (src/upload.py,
  src/ws_server.py, src/handlers/upload.py),
* the console log collector (src/console_log.py),
* the TCP bulk data channel (src/tcp_server.py),
* the shortcuts.vdf icon patcher (src/artwork.py).

Modelling conventions: paths and wire strings are Lean String / List Char;
byte streams are List Nat with each element below 256; wall-clock times
are rational numbers (Python floats carry exact values in every scenario
considered here); randomly generated artifacts (pairing codes, minted
tokens) are passed in as explicit parameters; network and filesystem
effects are recorded as data (frames sent, files written) in result
structures.  Python functions raising ValueError are embedded as Except
values.
-/

/-! ### POSIX path machinery

Lean embedding of the pieces of posixpath used by the agent:
os.path.isabs, os.path.normpath and os.path.join, operating on
List Char so that proofs can proceed by structural induction.
-/

/-- Component used for parent-directory checks: the two-character string
represented as a character list. -/
def dotdot : List Char := ['.', '.']

/-- Embeds Python str.split for separator slash: splits a character list on
every slash, keeping empty components, exactly as "a//b".split("/") gives
three components. -/
def splitSlash : List Char → List (List Char)
  | [] => [[]]
  | c :: cs =>
    if c = '/' then [] :: splitSlash cs
    else
      match splitSlash cs with
      | [] => [[c]]
      | t :: ts => (c :: t) :: ts

/-- Embeds the slash join used by posixpath.normpath: intercalates a slash
between components. -/
def joinSlash : List (List Char) → List Char
  | [] => []
  | [c] => c
  | c :: cs => c ++ '/' :: joinSlash cs

/-- Embeds os.path.isabs on POSIX: a path is absolute iff it starts with a
slash. -/
def isAbs (p : List Char) : Bool := p.head? = some '/'

/-- Embeds the initial_slashes computation of posixpath.normpath: one
leading slash counts 1, exactly two count 2 (POSIX special case), three or
more count 1 again. -/
def initialSlashes : List Char → Nat
  | '/' :: '/' :: '/' :: _ => 1
  | '/' :: '/' :: _ => 2
  | '/' :: _ => 1
  | _ => 0

/-- Embeds one iteration of the component loop of posixpath.normpath:
empty and single-dot components are dropped; a dot-dot component pops the
last accumulated component unless the accumulator is empty on a relative
path or already ends in dot-dot; every other component is appended. -/
def normStep (slashes : Nat) (acc : List (List Char)) (comp : List Char) :
    List (List Char) :=
  if comp = [] ∨ comp = ['.'] then acc
  else if comp ≠ dotdot ∨ (slashes = 0 ∧ acc = []) ∨ acc.getLast? = some dotdot
    then acc ++ [comp]
  else acc.dropLast

/-- Embeds the full component loop of posixpath.normpath. -/
def normComps (slashes : Nat) (comps : List (List Char)) : List (List Char) :=
  comps.foldl (normStep slashes) []

/-- Embeds posixpath.normpath on character lists, following the reference
implementation line by line: empty input gives a dot; otherwise split on
slashes, run the component loop, join, reinstate the leading slashes, and
fall back to a dot when the result would be empty. -/
def normpath (p : List Char) : List Char :=
  if p = [] then ['.']
  else
    let sl := initialSlashes p
    let nc := normComps sl (splitSlash p)
    let joined := List.replicate sl '/' ++ joinSlash nc
    if joined = [] then ['.'] else joined

/-- Embeds the two-argument os.path.join on POSIX: an absolute second
argument replaces the first; otherwise the parts are glued with a slash
unless the first part is empty or already ends in a slash. -/
def posixJoin (a b : String) : String :=
  if b.data.head? = some '/' then b
  else if a.data = [] ∨ a.data.getLast? = some '/' then a ++ b
  else a ++ "/" ++ b

/-- Embeds handlers/upload.py _validate_safe_path: rejects the empty path,
absolute paths, and paths whose normalized form is dot-dot or starts with
dot-dot-slash; ValueError is embedded as Except.error carrying the
message. -/
def validate_safe_path (file_path : String) : Except String Unit :=
  if file_path.data = [] then .error "empty path"
  else if isAbs file_path.data then
    .error ("absolute path not allowed: " ++ file_path)
  else
    let normalized := normpath file_path.data
    if normalized = dotdot ∨ (dotdot ++ ['/']).isPrefixOf normalized then
      .error ("parent directory traversal not allowed: " ++ file_path)
    else .ok ()

/-- Embeds tcp_server.py _validate_path; the logic is identical to
validate_safe_path, only the traversal error message differs. -/
def validate_path (path : String) : Except String Unit :=
  if path.data = [] then .error "empty path"
  else if isAbs path.data then
    .error ("absolute path not allowed: " ++ path)
  else
    let normalized := normpath path.data
    if normalized = dotdot ∨ (dotdot ++ ['/']).isPrefixOf normalized then
      .error ("parent traversal not allowed: " ++ path)
    else .ok ()

/-- Boolean acceptance form of the safe-path validator. -/
def safePathOk (p : String) : Bool :=
  match validate_safe_path p with
  | .ok _ => true
  | .error _ => false

/-- Well-formedness of a path component as the normpath loop emits it on
relative inputs: nonempty, not a single dot, and slash-free.  Used by
the idempotence development. -/
def GoodComp (x : List Char) : Prop := x ≠ [] ∧ x ≠ ['.'] ∧ '/' ∉ x

/-- Shape invariant of the normpath accumulator on relative inputs: a
run of dot-dot components followed by components that are not
dot-dot. -/
def NormalAcc (l : List (List Char)) : Prop :=
  ∃ k rest, l = List.replicate k dotdot ++ rest ∧ ∀ x ∈ rest, x ≠ dotdot

/-! ### Pairing authority (src/pairing.py)

PairingManager state and operations.  The settings-persisted
authorized_hubs map is carried inside the state.  time.time() is passed
in as a rational now; the randomly generated six-digit code and the
minted token are explicit parameters.
-/

/-- Embeds the per-hub record stored under authorized_hubs in the
settings store. -/
structure HubRecord where
  name : String
  platform : String
  token : String
  paired_at : ℚ
deriving DecidableEq, Repr

/-- Embeds the mutable fields of pairing.PairingManager together with the
settings-persisted authorized_hubs map. -/
structure PairingState where
  pending_code : Option String
  pending_hub_id : Option String
  pending_hub_name : Option String
  pending_hub_platform : Option String
  code_expires_at : ℚ
  failed_attempts : Nat
  lockout_until : ℚ
  authorized : List (String × HubRecord)
deriving DecidableEq, Repr

/-- Embeds pairing.PAIRING_CODE_EXPIRY. -/
def PAIRING_CODE_EXPIRY : ℚ := 60

/-- Embeds pairing.MAX_FAILED_ATTEMPTS. -/
def MAX_FAILED_ATTEMPTS : Nat := 3

/-- Embeds pairing.LOCKOUT_DURATION. -/
def LOCKOUT_DURATION : ℚ := 300

/-- Embeds Python truthiness of an Optional str: falsy when None or
empty. -/
def optStrFalsy : Option String → Bool
  | none => true
  | some s => s = ""

/-- Embeds PairingManager.generate_code.  The six random digits are the
fresh parameter.  Note that the source has no lockout branch: it
unconditionally stores the pending state and returns the code, whatever
the value of lockout_until. -/
def generate_code (st : PairingState) (now : ℚ) (fresh : String)
    (hub_id hub_name hub_platform : String) : String × PairingState :=
  (fresh,
   { st with
      pending_code := some fresh
      pending_hub_id := some hub_id
      pending_hub_name := some hub_name
      pending_hub_platform := some hub_platform
      code_expires_at := now + PAIRING_CODE_EXPIRY })

/-- Embeds PairingManager.validate_code, branch for branch: lockout check
first (no counter change), then missing or expired pending code (no
counter change), then the mismatch branch (counter incremented, third
failure engages the lockout, clears the pending code and zeroes the
counter), else the success path (counter reset, record persisted under
authorized_hubs, all pending fields cleared, minted token returned). -/
def validate_code (st : PairingState) (now : ℚ) (minted : String)
    (hub_id code : String) : Option String × PairingState :=
  if now < st.lockout_until then (none, st)
  else if optStrFalsy st.pending_code ∨ now > st.code_expires_at then (none, st)
  else if st.pending_hub_id ≠ some hub_id ∨ st.pending_code ≠ some code then
    let fa := st.failed_attempts + 1
    if MAX_FAILED_ATTEMPTS ≤ fa then
      (none,
       { st with
          failed_attempts := 0
          lockout_until := now + LOCKOUT_DURATION
          pending_code := none })
    else (none, { st with failed_attempts := fa })
  else
    (some minted,
     { st with
        failed_attempts := 0
        authorized :=
          (hub_id,
           { name := (st.pending_hub_name).getD ""
             platform := (st.pending_hub_platform).getD ""
             token := minted
             paired_at := now }) ::
            st.authorized.filter (fun kv => kv.1 ≠ hub_id)
        pending_code := none
        pending_hub_id := none
        pending_hub_name := none
        pending_hub_platform := none })

/-- Embeds PairingManager.validate_token: the hub record must exist and
its stored token must equal the presented one. -/
def validate_token (authorized : List (String × HubRecord))
    (hub_id token : String) : Bool :=
  match authorized.lookup hub_id with
  | some rec => rec.token = token
  | none => false

/-! ### Protocol compatibility and the hub_connected handshake

Two embeddings of the handshake exist in the source: the inline method
WebSocketServer.handle_hub_connected in src/ws_server.py, which is the
one reached from the dispatch loop in handle_connection, and the
refactored handlers/auth.py handle_hub_connected, which additionally
checks the protocol version.  Nothing under src/ imports the handlers
package, so the inline method is the live one; both are embedded so that
the divergence can be stated.
-/

/-- Embeds handlers/auth.py PROTOCOL_VERSION. -/
def PROTOCOL_VERSION : Int := 1

/-- Embeds handlers/auth.py PROTOCOL_MIN_SUPPORTED. -/
def PROTOCOL_MIN_SUPPORTED : Int := 1

/-- Embeds handlers/auth.py _check_protocol_compatibility: version 0 is
treated as 1; below the minimum or above the current version is
incompatible; strictly below current but in range is deprecated;
otherwise compatible. -/
def check_protocol_compatibility (peer_version : Int) : String × String :=
  let effective : Int := if peer_version = 0 then 1 else peer_version
  if effective < PROTOCOL_MIN_SUPPORTED then
    ("incompatible",
     "peer protocol v" ++ toString effective ++
       " is below minimum supported v" ++ toString PROTOCOL_MIN_SUPPORTED)
  else if PROTOCOL_VERSION < effective then
    ("incompatible",
     "peer protocol v" ++ toString effective ++
       " is above our current v" ++ toString PROTOCOL_VERSION)
  else if effective < PROTOCOL_VERSION then
    ("deprecated", "peer protocol v" ++ toString effective ++ " is deprecated")
  else ("compatible", "")

/-- Embeds the hub_connected payload fields read by the handlers, with
the dictionary defaults of payload.get applied. -/
structure HubPayload where
  hubId : String
  name : String
  version : String
  platform : String
  token : String
  protocolVersion : Int
deriving DecidableEq, Repr

/-- Frames the agent can send on the control channel in the modelled
handlers. -/
inductive Frame where
  | errFrame (code : Nat) (message : String)
  | agentStatus
  | pairingRequired (code : String) (expiresIn : ℚ)
  | chunkResponse (bytesWritten totalWritten : Nat)
deriving DecidableEq, Repr

/-- Outcome of a hub_connected handshake: the reply frame, the hub id
returned to the dispatch loop, the authorized flag, and the updated
pairing state. -/
structure HandshakeOutcome where
  reply : Frame
  hub_id : Option String
  authorized : Bool
  pairing : PairingState
deriving DecidableEq, Repr

/-- Embeds the dispatched WebSocketServer.handle_hub_connected from
src/ws_server.py: no protocol-version check at all; a non-empty valid
token authorizes, an empty hubId draws a 401, and otherwise a pairing
code is generated (never a 429, since generate_code cannot signal
lockout). -/
def ws_handle_hub_connected (pairing : PairingState) (now : ℚ)
    (fresh : String) (p : HubPayload) : HandshakeOutcome :=
  if p.token ≠ "" ∧ p.hubId ≠ "" ∧ validate_token pairing.authorized p.hubId p.token then
    { reply := .agentStatus, hub_id := some p.hubId, authorized := true
      pairing := pairing }
  else if p.hubId = "" then
    { reply := .errFrame 401 "hub_id required", hub_id := none
      authorized := false, pairing := pairing }
  else
    let (code, pairing') := generate_code pairing now fresh p.hubId p.name p.platform
    { reply := .pairingRequired code PAIRING_CODE_EXPIRY
      hub_id := some p.hubId, authorized := false, pairing := pairing' }

/-- Embeds handlers/auth.py handle_hub_connected: identical to the inline
version except that an incompatible protocol version is rejected with a
406 before any authentication.  The branch that would reply 429 when
generate_code signals lockout is unreachable, because generate_code
always returns a string; the embedding therefore omits it, exactly as the
source can never execute it. -/
def auth_handle_hub_connected (pairing : PairingState) (now : ℚ)
    (fresh : String) (p : HubPayload) : HandshakeOutcome :=
  let compat := check_protocol_compatibility p.protocolVersion
  if compat.1 = "incompatible" then
    { reply := .errFrame 406 compat.2, hub_id := none, authorized := false
      pairing := pairing }
  else if p.token ≠ "" ∧ p.hubId ≠ "" ∧ validate_token pairing.authorized p.hubId p.token then
    { reply := .agentStatus, hub_id := some p.hubId, authorized := true
      pairing := pairing }
  else if p.hubId = "" then
    { reply := .errFrame 401 "hub_id required", hub_id := none
      authorized := false, pairing := pairing }
  else
    let (code, pairing') := generate_code pairing now fresh p.hubId p.name p.platform
    { reply := .pairingRequired code PAIRING_CODE_EXPIRY
      hub_id := some p.hubId, authorized := false, pairing := pairing' }

/-! ### Upload sessions and the chunk-write paths

UploadSession from src/upload.py.  The constructor sets install_path and
executable to None, but handle_init_upload assigns both immediately after
construction and before the session is stored, so every session a chunk
handler can look up has them set; install_path is therefore a plain
String here.
-/

/-- Embeds upload.UploadSession. -/
structure UploadSession where
  id : String
  game_name : String
  total_size : Nat
  files : List String
  transferred : Nat
  current_file : Option String
  status : String
  install_path : String
  executable : Option String
deriving DecidableEq, Repr

/-- Embeds UploadSession.progress: one hundred when the declared total is
zero, otherwise the transferred-over-total ratio scaled to percent. -/
def progress (s : UploadSession) : ℚ :=
  if s.total_size = 0 then 100
  else ((s.transferred : ℚ) / (s.total_size : ℚ)) * 100

/-- Record of one open-and-write on the install tree: the joined path,
the seek offset, the number of bytes written, and whether the file was
opened truncating (mode wb, taken when offset is zero) rather than
appending. -/
structure FileWrite where
  path : String
  offset : Nat
  length : Nat
  truncate : Bool
deriving DecidableEq, Repr

/-- Outcome of a chunk write: the single frame sent on the control
channel, the disk writes performed, and the updated uploads map. -/
structure ChunkOutcome where
  reply : Frame
  wrote : List FileWrite
  uploads : List (String × UploadSession)
deriving DecidableEq, Repr

/-- Replaces the session stored under the given id. -/
def updateUpload (ups : List (String × UploadSession)) (uid : String)
    (s : UploadSession) : List (String × UploadSession) :=
  ups.map (fun kv => if kv.1 = uid then (kv.1, s) else kv)

/-- Embeds the dispatched WebSocketServer._write_chunk from
src/ws_server.py, the shared JSON and binary chunk path: unknown upload
id draws a 404; otherwise the chunk is written at the offset under
install_path joined with file_path, transferred is advanced by the chunk
length, and an upload_chunk_response is sent.  There is no call to any
path validator in this method. -/
def ws_write_chunk (ups : List (String × UploadSession))
    (upload_id file_path : String) (offset chunk_len : Nat) : ChunkOutcome :=
  match ups.lookup upload_id with
  | none => { reply := .errFrame 404 "Upload not found", wrote := [], uploads := ups }
  | some s =>
    let full_path := posixJoin s.install_path file_path
    let s' := { s with transferred := s.transferred + chunk_len
                       current_file := some file_path }
    { reply := .chunkResponse chunk_len s'.transferred
      wrote := [{ path := full_path, offset := offset, length := chunk_len
                  truncate := offset = 0 }]
      uploads := updateUpload ups upload_id s' }

/-- Embeds the refactored _write_chunk from src/handlers/upload.py: same
as the inline method, except that after the session lookup the file path
goes through _validate_safe_path, and a ValueError draws a 400 with no
write and no session change. -/
def handlers_write_chunk (ups : List (String × UploadSession))
    (upload_id file_path : String) (offset chunk_len : Nat) : ChunkOutcome :=
  match ups.lookup upload_id with
  | none => { reply := .errFrame 404 "Upload not found", wrote := [], uploads := ups }
  | some s =>
    match validate_safe_path file_path with
    | .error e =>
      { reply := .errFrame 400 ("invalid file path: " ++ e), wrote := []
        uploads := ups }
    | .ok _ =>
      let full_path := posixJoin s.install_path file_path
      let s' := { s with transferred := s.transferred + chunk_len
                         current_file := some file_path }
      { reply := .chunkResponse chunk_len s'.transferred
        wrote := [{ path := full_path, offset := offset, length := chunk_len
                    truncate := offset = 0 }]
        uploads := updateUpload ups upload_id s' }

/-! ### Console log collector (src/console_log.py) -/

/-- Embeds console_log.MAX_BUFFER_SIZE. -/
def MAX_BUFFER_SIZE : Nat := 200

/-- Embeds console_log.LOG_LEVEL_DEFAULT, the bitwise or of log, warn,
error and info. -/
def LOG_LEVEL_DEFAULT : Nat := 15

/-- Embeds the _LEVEL_BITS dictionary lookup with default 0. -/
def levelBits (level : String) : Nat :=
  if level = "log" then 1
  else if level = "warn" then 2
  else if level = "warning" then 2
  else if level = "error" then 4
  else if level = "info" then 8
  else if level = "debug" then 16
  else if level = "verbose" then 16
  else 0

/-- Embeds the entry dictionary built by add_entry: timestamp, level,
source and text always present; url, line and segments only when
truthy. -/
structure LogEntry where
  timestamp : Nat
  level : String
  source : String
  text : String
  url : Option String
  line : Option Nat
  segments : Option (List String)
deriving DecidableEq, Repr

/-- Embeds the buffer-relevant state of ConsoleLogCollector. -/
structure ConsoleLogState where
  buffer : List LogEntry
  dropped : Nat
  level_mask : Nat
deriving DecidableEq, Repr

/-- Arguments of one add_entry call, with now_ms standing for
int(time.time() * 1000). -/
structure AddEntryCall where
  now_ms : Nat
  level : String
  text : String
  source : String
  url : String
  line : Nat
  segments : Option (List String)
deriving DecidableEq, Repr

/-- Entry dictionary assembled by add_entry for a call: the optional keys
are set exactly when the Python values are truthy. -/
def mkLogEntry (c : AddEntryCall) : LogEntry :=
  { timestamp := c.now_ms
    level := c.level
    source := c.source
    text := c.text
    url := if c.url = "" then none else some c.url
    line := if c.line = 0 then none else some c.line
    segments :=
      match c.segments with
      | none => none
      | some l => if l = [] then none else some l }

/-- Embeds ConsoleLogCollector.add_entry: a level whose bit is zero or
masked out returns with no state change at all; an admitted entry pops
the oldest buffered entry and bumps dropped when the buffer is at
capacity, then appends. -/
def add_entry (st : ConsoleLogState) (c : AddEntryCall) : ConsoleLogState :=
  let bit := levelBits c.level
  if bit = 0 ∨ st.level_mask &&& bit = 0 then st
  else
    let entry := mkLogEntry c
    if MAX_BUFFER_SIZE ≤ st.buffer.length then
      { st with buffer := st.buffer.drop 1 ++ [entry], dropped := st.dropped + 1 }
    else
      { st with buffer := st.buffer ++ [entry] }

/-- State right after ConsoleLogCollector.start: empty buffer, zero
dropped, current mask. -/
def consoleLogStart (mask : Nat) : ConsoleLogState :=
  { buffer := [], dropped := 0, level_mask := mask }

/-- Folds a sequence of add_entry calls over a state. -/
def run_add_entries (st : ConsoleLogState) (calls : List AddEntryCall) :
    ConsoleLogState :=
  calls.foldl add_entry st

/-! ### TCP bulk data channel (src/tcp_server.py)

TcpDataServer._handle_connection over an in-memory byte stream.  Bytes
are Nat values below 256.  The ASCII decode that Python applies to the
32 token bytes before the constant-time comparison is modelled
explicitly, because it raises (closing the connection with no auth byte
sent) on any byte of 128 or more.  The per-file inner read loop of the
source pulls chunks of at most TCP_BUFFER_SIZE until the declared size is
reached; against a single in-memory stream every such read returns at
least one byte while data remains, so its net effect is: write
min(file_size, remaining stream) bytes and fail with a connection error
iff the stream runs out early.  The loop below records that net effect.
-/

/-- Embeds tcp_server.TOKEN_LEN. -/
def TOKEN_LEN : Nat := 32

/-- Embeds bytes.decode for the ascii codec: defined exactly when every
byte is below 128, as a character list. -/
def asciiDecode (bs : List Nat) : Option (List Char) :=
  if bs.all (fun b => b < 128) then some (bs.map Char.ofNat) else none

/-- Failure modes of the bulk channel, standing for the exceptions the
Python coroutine can raise. -/
inductive TcpErr where
  | incompleteRead
  | decodeError
  | invalidToken
  | connError
  | pathError (message : String)
deriving DecidableEq, Repr

/-- Big-endian value of a byte list. -/
def beValue (bs : List Nat) : Nat := bs.foldl (fun acc b => acc * 256 + b) 0

/-- Embeds the per-file receive loop of _handle_connection: read a
two-byte big-endian path length (zero is the end marker), the path
bytes, an eight-byte big-endian size, validate the path, then consume
the file bytes.  Returns the files written as pairs of relative path and
byte count actually written, the total byte counter, and the loop
result.  Fuel bounds the recursion; the stream length plus one always
suffices because every non-terminal iteration consumes the two length
bytes. -/
def recv_loop (fuel : Nat) (stream : List Nat) (total : Nat) :
    List (List Char × Nat) × Nat × Except TcpErr Unit :=
  match fuel with
  | 0 => ([], total, .error .connError)
  | fuel + 1 =>
    if stream.length < 2 then ([], total, .error .incompleteRead)
    else
      let path_len := beValue (stream.take 2)
      let rest := stream.drop 2
      if path_len = 0 then ([], total, .ok ())
      else if rest.length < path_len then ([], total, .error .incompleteRead)
      else
        match asciiDecode (rest.take path_len) with
        | none => ([], total, .error .decodeError)
        | some relChars =>
          let rest2 := rest.drop path_len
          if rest2.length < 8 then ([], total, .error .incompleteRead)
          else
            let file_size := beValue (rest2.take 8)
            let rest3 := rest2.drop 8
            match validate_path (String.mk relChars) with
            | .error e => ([], total, .error (.pathError e))
            | .ok _ =>
              if rest3.length < file_size then
                ([(relChars, rest3.length)], total + rest3.length,
                 .error .connError)
              else
                let r := recv_loop fuel (rest3.drop file_size) (total + file_size)
                ((relChars, file_size) :: r.1, r.2)

deriving instance DecidableEq for Except

/-- Outcome of one bulk-channel connection: bytes written back to the
socket, files written to disk, the total byte counter, and the overall
result. -/
structure TcpOutcome where
  sent : List Nat
  files : List (List Char × Nat)
  total : Nat
  result : Except TcpErr Nat
deriving DecidableEq, Repr

/-- Embeds TcpDataServer._handle_connection: read exactly TOKEN_LEN bytes
(EOF first raises), ASCII-decode them (a byte of 128 or more raises
before anything is sent), compare against the minted token, send the
single rejection byte 0x00 and raise on mismatch, or send 0x01 and run
the receive loop on match. -/
def tcp_handle_connection (token : String) (stream : List Nat) : TcpOutcome :=
  if stream.length < TOKEN_LEN then
    { sent := [], files := [], total := 0, result := .error .incompleteRead }
  else
    match asciiDecode (stream.take TOKEN_LEN) with
    | none => { sent := [], files := [], total := 0, result := .error .decodeError }
    | some received =>
      if String.mk received = token then
        let r := recv_loop ((stream.drop TOKEN_LEN).length + 1)
          (stream.drop TOKEN_LEN) 0
        { sent := [1], files := r.1, total := r.2.1
          result := match r.2.2 with
            | .ok _ => .ok r.2.1
            | .error e => .error e }
      else
        { sent := [0], files := [], total := 0, result := .error .invalidToken }

/-! ### Shortcuts catalog icon patcher (src/artwork.py)

The retry loop of _update_vdf_icon.  What each attempt observes on disk
is abstracted as a VdfAttempt: the file may be missing, loading or
dumping may raise, or the file parses into a list of raw appid fields
with a flag saying whether the write-back would succeed.  Sleeps are
recorded as their durations, ICON_RETRY_BASE_DELAY * 2 ^ attempt
seconds.
-/

/-- Embeds artwork.MAX_ICON_RETRIES. -/
def MAX_ICON_RETRIES : Nat := 5

/-- Embeds artwork.ICON_RETRY_BASE_DELAY (1.0 seconds). -/
def ICON_RETRY_BASE_DELAY : ℚ := 1

/-- What one attempt of _update_vdf_icon observes: shortcuts.vdf missing,
an exception while loading or writing, or a parsed shortcut list (the
raw appid of each entry) together with write-back success. -/
inductive VdfAttempt where
  | missing
  | raised
  | parsed (shortcuts : List Int) (writeOk : Bool)
deriving DecidableEq, Repr

/-- Embeds the id derivation (shortcut appid bitmask or 0x80000000): the
Python expression (raw & 0xFFFFFFFF) | 0x80000000 equals, for every
integer raw, 2 ^ 31 plus the low 31 bits of raw, written here with
euclidean remainders. -/
def derive_appid (raw : Int) : Nat :=
  2 ^ 31 + ((raw.emod (2 ^ 32)).toNat % 2 ^ 31)

/-- Embeds the entry scan of _update_vdf_icon: some entry of the parsed
catalog derives to the requested app id. -/
def vdf_found (shortcuts : List Int) (app_id : Nat) : Bool :=
  shortcuts.any (fun raw => derive_appid raw = app_id)

/-- Result of the patcher: overall success, attempts consumed, and the
recorded sleep durations in order. -/
structure VdfResult where
  success : Bool
  attemptsUsed : Nat
  sleeps : List ℚ
deriving DecidableEq, Repr

/-- Embeds the success condition of one attempt of _update_vdf_icon: the
file parses, the scan finds the entry and the write-back does not
raise. -/
def vdf_attempt_ok (states : Nat → VdfAttempt) (app_id attempt : Nat) : Bool :=
  match states attempt with
  | .parsed s w => vdf_found s app_id && w
  | _ => false

/-- Embeds the body of the retry loop of _update_vdf_icon from a given
attempt index with the given fuel: an attempt succeeds outright exactly
when the file parses, the scan finds the entry and the write-back does
not raise; every other attempt sleeps ICON_RETRY_BASE_DELAY * 2 ^ attempt
seconds and retries. -/
def vdf_loop (states : Nat → VdfAttempt) (app_id : Nat) :
    Nat → Nat → VdfResult
  | 0, _ => { success := false, attemptsUsed := 0, sleeps := [] }
  | fuel + 1, attempt =>
    if vdf_attempt_ok states app_id attempt then
      { success := true, attemptsUsed := 1, sleeps := [] }
    else
      let r := vdf_loop states app_id fuel (attempt + 1)
      { success := r.success
        attemptsUsed := r.attemptsUsed + 1
        sleeps := ICON_RETRY_BASE_DELAY * 2 ^ attempt :: r.sleeps }

/-- Embeds _update_vdf_icon: the retry loop over MAX_ICON_RETRIES
attempts starting at attempt zero. -/
def update_vdf_icon (states : Nat → VdfAttempt) (app_id : Nat) : VdfResult :=
  vdf_loop states app_id MAX_ICON_RETRIES 0

/-! ### Concrete fixtures used by the closed theorems and witnesses -/

/-- Fixture: an upload session as handle_init_upload stores it, with five
of ten declared bytes already transferred. -/
def sessG : UploadSession :=
  { id := "u1", game_name := "G", total_size := 10, files := ["g.exe"]
    transferred := 5, current_file := none, status := "active"
    install_path := "/home/deck/games/G", executable := some "g.exe" }

/-- Fixture: uploads map holding sessG under its id. -/
def upsG : List (String × UploadSession) := [("u1", sessG)]

/-- Fixture: an authorization record for hub H with token tok123. -/
def recH : HubRecord :=
  { name := "Hub", platform := "linux", token := "tok123", paired_at := 0 }

/-- Fixture: pairing state with hub H already paired and nothing
pending. -/
def pairedState : PairingState :=
  { pending_code := none, pending_hub_id := none, pending_hub_name := none
    pending_hub_platform := none, code_expires_at := 0, failed_attempts := 0
    lockout_until := 0, authorized := [("H", recH)] }

/-- Fixture: pairing state with an active lockout until time 500 and no
pending code. -/
def lockedState : PairingState :=
  { pending_code := none, pending_hub_id := none, pending_hub_name := none
    pending_hub_platform := none, code_expires_at := 0, failed_attempts := 0
    lockout_until := 500, authorized := [] }

/-- Fixture: pairing state with pending code 123456 for hub H, expiring
at time 60, no failures, no lockout. -/
def pendingState : PairingState :=
  { pending_code := some "123456", pending_hub_id := some "H"
    pending_hub_name := some "Hub", pending_hub_platform := some "linux"
    code_expires_at := 60, failed_attempts := 0, lockout_until := 0
    authorized := [] }

/-- Fixture: hub_connected payload carrying a valid token and declared
protocol version 99. -/
def payload99 : HubPayload :=
  { hubId := "H", name := "Hub", version := "1.0", platform := "linux"
    token := "tok123", protocolVersion := 99 }

/-- Fixture: hub_connected payload with no token and protocol version
1, as an unpaired hub sends it. -/
def payloadUnpaired : HubPayload :=
  { hubId := "H", name := "Hub", version := "1.0", platform := "linux"
    token := "", protocolVersion := 1 }

/-- Fixture: a 32-character bulk-channel token of the shape
secrets.token_hex(16) produces. -/
def tok32 : String := "0123456789abcdef0123456789abcdef"

/-- Fixture: pendingState with one failure already recorded and an
active lockout until time 500. -/
def lockedPendingState : PairingState :=
  { pendingState with failed_attempts := 1, lockout_until := 500 }

/-- Fixture: a buffered console log entry. -/
def logEntry0 : LogEntry :=
  { timestamp := 0, level := "log", source := "console", text := "x"
    url := none, line := none, segments := none }

/-- Fixture: console log state whose buffer is at capacity under the
default mask. -/
def st200 : ConsoleLogState :=
  { buffer := List.replicate 200 logEntry0, dropped := 0
    level_mask := LOG_LEVEL_DEFAULT }

/-- Fixture: an add_entry call at an admitted level. -/
def call0 : AddEntryCall :=
  { now_ms := 5, level := "log", text := "y", source := "console"
    url := "", line := 0, segments := none }

/-- Fixture: catalog observations where every attempt parses a catalog
holding one shortcut with raw appid 5 and the write-back succeeds. -/
def vdfStatesFound : Nat → VdfAttempt := fun _ => .parsed [5] true

/-! ## Claim theorems -/

/-- C1.  The claim says every upload_chunk whose filePath is empty,
absolute, or normalizes to a parent traversal draws a single error 400
with no disk write and no change to the transferred counter.  The
refactored handlers/upload.py _write_chunk does exactly that, but the
chunk handler the dispatch loop of ws_server.py actually reaches is the
inline WebSocketServer._write_chunk, which never validates filePath: on
filePath ../evil with a known upload id it writes the chunk under
install_path/../evil, advances transferred and answers
upload_chunk_response.  This theorem evaluates both embeddings at that
failing input. -/
theorem C1_upload_chunk_safe_path_divergence :
    ws_write_chunk upsG "u1" "../evil" 0 2 =
      { reply := .chunkResponse 2 7
        wrote := [{ path := "/home/deck/games/G/../evil", offset := 0
                    length := 2, truncate := true }]
        uploads := [("u1", { sessG with transferred := 7
                                        current_file := some "../evil" })] } ∧
    handlers_write_chunk upsG "u1" "../evil" 0 2 =
      { reply := .errFrame 400
          "invalid file path: parent directory traversal not allowed: ../evil"
        wrote := [], uploads := upsG } ∧
    (handlers_write_chunk upsG "u1" "" 0 2).reply =
      .errFrame 400 "invalid file path: empty path" ∧
    (handlers_write_chunk upsG "u1" "/abs" 0 2).reply =
      .errFrame 400 "invalid file path: absolute path not allowed: /abs" ∧
    (handlers_write_chunk upsG "u1" "a/../.." 0 2).wrote = [] := by
  refine ⟨by decide, by decide, by decide, by decide, by decide⟩

/-- C2.  The claim says a declared protocol version of 0 is treated as 1
and any effective version outside the inclusive range one-to-one draws a
406 with no authorization.  handlers/auth.py implements exactly that,
but nothing imports the handlers package: the dispatched
WebSocketServer.handle_hub_connected in ws_server.py never reads
protocolVersion, so a hub declaring version 99 with a valid token is
authorized with agent_status and no 406 is ever sent.  This theorem
evaluates both embeddings. -/
theorem C2_protocol_version_divergence :
    check_protocol_compatibility 0 = ("compatible", "") ∧
    (check_protocol_compatibility 2).1 = "incompatible" ∧
    (check_protocol_compatibility (-1)).1 = "incompatible" ∧
    auth_handle_hub_connected pairedState 0 "123456" payload99 =
      { reply := .errFrame 406 (check_protocol_compatibility 99).2
        hub_id := none, authorized := false, pairing := pairedState } ∧
    ws_handle_hub_connected pairedState 0 "123456" payload99 =
      { reply := .agentStatus, hub_id := some "H", authorized := true
        pairing := pairedState } := by
  refine ⟨by decide, by decide, by decide, by decide, by decide⟩

/-- C3.  The claim says an active lockout makes generate_code return a
locked indication instead of a code and the unpaired peer then receives
error 429.  In the source, PairingManager.generate_code has no lockout
branch at all: at time 100 with lockout_until 500 it still mints and
stores a pending code, and both handshake embeddings reply
pairing_required with that code; the 429 branch of handlers/auth.py is
unreachable (and would call a lockout_remaining method PairingManager
does not define).  This theorem evaluates the code at that failing
input. -/
theorem C3_generate_code_ignores_lockout :
    ((100 : ℚ) < lockedState.lockout_until) ∧
    (generate_code lockedState 100 "654321" "H" "Hub" "linux").1 = "654321" ∧
    (generate_code lockedState 100 "654321" "H" "Hub" "linux").2.pending_code =
      some "654321" ∧
    (ws_handle_hub_connected lockedState 100 "654321" payloadUnpaired).reply =
      .pairingRequired "654321" PAIRING_CODE_EXPIRY ∧
    (auth_handle_hub_connected lockedState 100 "654321" payloadUnpaired).reply =
      .pairingRequired "654321" PAIRING_CODE_EXPIRY := by
  refine ⟨by decide, by decide, by decide, by decide, by decide⟩

/-- C4 counterexample.  The claim says every failing validate_code call
increments the failed-attempt counter.  At time 100 with an active
lockout until 500 the call fails (returns none) yet the counter stays at
1; likewise a call at time 100 on an expired pending code (expiry 60)
fails and leaves the counter at 0. -/
theorem C4_counterexample :
    ((100 : ℚ) < lockedPendingState.lockout_until ∧
      (validate_code lockedPendingState 100 "tok" "H" "999999").1 = none ∧
      (validate_code lockedPendingState 100 "tok" "H" "999999").2.failed_attempts = 1 ∧
      ¬ ((validate_code lockedPendingState 100 "tok" "H" "999999").2.failed_attempts =
          lockedPendingState.failed_attempts + 1)) ∧
    ((100 : ℚ) > pendingState.code_expires_at ∧
      (validate_code pendingState 100 "tok" "H" "123456").1 = none ∧
      (validate_code pendingState 100 "tok" "H" "123456").2.failed_attempts = 0 ∧
      ¬ ((validate_code pendingState 100 "tok" "H" "123456").2.failed_attempts =
          pendingState.failed_attempts + 1)) := by
  refine ⟨⟨by decide, by decide, by decide, by decide⟩,
    ⟨by decide, by decide, by decide, by decide⟩⟩

/-- C4 as amended.  A validate_code call failing because the lockout is
active, because no pending code exists, or because the pending code is
expired returns null with the state (counter included) unchanged; only a
failure of the peer-and-code match with an active, unexpired pending
code increments the counter, and when the incremented counter reaches
MAX_FAILED_ATTEMPTS the call sets the 300-second lockout, clears the
pending code, and resets the counter to zero. -/
theorem C4_validate_code_failure_accounting (st : PairingState) (now : ℚ)
    (minted hub_id code : String) :
    (now < st.lockout_until →
      validate_code st now minted hub_id code = (none, st)) ∧
    (¬ now < st.lockout_until →
      (optStrFalsy st.pending_code = true ∨ now > st.code_expires_at) →
      validate_code st now minted hub_id code = (none, st)) ∧
    (¬ now < st.lockout_until →
      ¬ (optStrFalsy st.pending_code = true ∨ now > st.code_expires_at) →
      (st.pending_hub_id ≠ some hub_id ∨ st.pending_code ≠ some code) →
      validate_code st now minted hub_id code =
        (none,
         if MAX_FAILED_ATTEMPTS ≤ st.failed_attempts + 1 then
           { st with failed_attempts := 0
                     lockout_until := now + LOCKOUT_DURATION
                     pending_code := none }
         else { st with failed_attempts := st.failed_attempts + 1 })) := by
  refine ⟨fun h1 => ?_, fun h1 h2 => ?_, fun h1 h2 h3 => ?_⟩
  · simp [validate_code, h1]
  · simp [validate_code, h1, h2]
  · simp only [validate_code, if_neg h1, if_neg h2, if_pos h3]
    split <;> rfl

/-- C4 witness: the third mismatching attempt on an active pending code
takes the lockout branch of C4_validate_code_failure_accounting. -/
theorem C4_validate_code_failure_accounting_witness :
    (¬ (1 : ℚ) < ({ pendingState with failed_attempts := 2 } : PairingState).lockout_until) ∧
    (¬ (optStrFalsy ({ pendingState with failed_attempts := 2 } : PairingState).pending_code = true ∨
        (1 : ℚ) > ({ pendingState with failed_attempts := 2 } : PairingState).code_expires_at)) ∧
    (({ pendingState with failed_attempts := 2 } : PairingState).pending_hub_id ≠ some "H" ∨
      ({ pendingState with failed_attempts := 2 } : PairingState).pending_code ≠ some "999999") ∧
    validate_code { pendingState with failed_attempts := 2 } 1 "tok" "H" "999999" =
      (none,
       if MAX_FAILED_ATTEMPTS ≤
           ({ pendingState with failed_attempts := 2 } : PairingState).failed_attempts + 1 then
         { { pendingState with failed_attempts := 2 } with
             failed_attempts := 0
             lockout_until := (1 : ℚ) + LOCKOUT_DURATION
             pending_code := none }
       else
         { { pendingState with failed_attempts := 2 } with
             failed_attempts :=
               ({ pendingState with failed_attempts := 2 } : PairingState).failed_attempts + 1 }) :=
  ⟨by decide, by decide, by decide,
   (C4_validate_code_failure_accounting { pendingState with failed_attempts := 2 }
      1 "tok" "H" "999999").2.2 (by decide) (by decide) (by decide)⟩

/-- C5.  From a state with an active, unexpired pending code and a zero
failure counter, three consecutive validate_code calls with mismatching
codes all return null; the third engages the lockout, so the remaining
lockout time at that moment is strictly positive, and a fourth call made
while the lockout is active returns null even with the peer id and code
that previously matched the pending entry. -/
theorem C5_lockout_after_three_failures (st : PairingState) (t1 t2 t3 t4 : ℚ)
    (m1 m2 m3 m4 pc c1 c2 c3 h : String)
    (hpc : st.pending_code = some pc) (hpcne : pc ≠ "")
    (_hph : st.pending_hub_id = some h) (hfa : st.failed_attempts = 0)
    (hl : st.lockout_until ≤ t1) (h12 : t1 ≤ t2) (h23 : t2 ≤ t3)
    (hexp : t3 ≤ st.code_expires_at) (_h34 : t3 ≤ t4)
    (h4lock : t4 < t3 + LOCKOUT_DURATION)
    (hc1 : c1 ≠ pc) (hc2 : c2 ≠ pc) (hc3 : c3 ≠ pc) :
    validate_code st t1 m1 h c1 = (none, { st with failed_attempts := 1 }) ∧
    validate_code { st with failed_attempts := 1 } t2 m2 h c2 =
      (none, { st with failed_attempts := 2 }) ∧
    validate_code { st with failed_attempts := 2 } t3 m3 h c3 =
      (none, { st with failed_attempts := 0
                       lockout_until := t3 + LOCKOUT_DURATION
                       pending_code := none }) ∧
    0 < ({ st with failed_attempts := 0
                   lockout_until := t3 + LOCKOUT_DURATION
                   pending_code := none } : PairingState).lockout_until - t3 ∧
    validate_code { st with failed_attempts := 0
                            lockout_until := t3 + LOCKOUT_DURATION
                            pending_code := none } t4 m4 h pc =
      (none, { st with failed_attempts := 0
                       lockout_until := t3 + LOCKOUT_DURATION
                       pending_code := none }) := by
  have hq1 : ¬ (t1 < st.lockout_until) := not_lt.mpr hl
  have hq2 : ¬ (t2 < st.lockout_until) := not_lt.mpr (hl.trans h12)
  have hq3 : ¬ (t3 < st.lockout_until) := not_lt.mpr ((hl.trans h12).trans h23)
  have hfal : optStrFalsy st.pending_code = false := by
    rw [hpc]; simp [optStrFalsy, hpcne]
  have he1 : ¬ (optStrFalsy st.pending_code = true ∨ t1 > st.code_expires_at) := by
    push_neg
    exact ⟨by simp [hfal], le_trans h12 (le_trans h23 hexp)⟩
  have he2 : ¬ (optStrFalsy st.pending_code = true ∨ t2 > st.code_expires_at) := by
    push_neg
    exact ⟨by simp [hfal], le_trans h23 hexp⟩
  have he3 : ¬ (optStrFalsy st.pending_code = true ∨ t3 > st.code_expires_at) := by
    push_neg
    exact ⟨by simp [hfal], hexp⟩
  have hm1 : st.pending_hub_id ≠ some h ∨ st.pending_code ≠ some c1 :=
    Or.inr (by rw [hpc]; intro e; exact hc1 (Option.some.inj e).symm)
  have hm2 : st.pending_hub_id ≠ some h ∨ st.pending_code ≠ some c2 :=
    Or.inr (by rw [hpc]; intro e; exact hc2 (Option.some.inj e).symm)
  have hm3 : st.pending_hub_id ≠ some h ∨ st.pending_code ≠ some c3 :=
    Or.inr (by rw [hpc]; intro e; exact hc3 (Option.some.inj e).symm)
  refine ⟨?_, ?_, ?_, ?_, ?_⟩
  · simp only [validate_code, if_neg hq1, if_neg he1, if_pos hm1, hfa]
    norm_num [MAX_FAILED_ATTEMPTS]
  · simp only [validate_code]
    rw [if_neg hq2, if_neg he2, if_pos hm2]
    norm_num [MAX_FAILED_ATTEMPTS]
  · simp only [validate_code]
    rw [if_neg hq3, if_neg he3, if_pos hm3]
    norm_num [MAX_FAILED_ATTEMPTS]
  · simp only []
    norm_num [LOCKOUT_DURATION]
  · simp only [validate_code]
    rw [if_pos h4lock]

/-- C5 witness: the scenario of C5_lockout_after_three_failures run from
pendingState with three wrong codes at time 1 and the previously
matching pair at time 2. -/
theorem C5_lockout_after_three_failures_witness :
    validate_code pendingState 1 "m1" "H" "000000" =
      (none, { pendingState with failed_attempts := 1 }) ∧
    validate_code { pendingState with failed_attempts := 1 } 1 "m2" "H" "111111" =
      (none, { pendingState with failed_attempts := 2 }) ∧
    validate_code { pendingState with failed_attempts := 2 } 1 "m3" "H" "222222" =
      (none, { pendingState with failed_attempts := 0
                                 lockout_until := (1 : ℚ) + LOCKOUT_DURATION
                                 pending_code := none }) ∧
    0 < ({ pendingState with failed_attempts := 0
                             lockout_until := (1 : ℚ) + LOCKOUT_DURATION
                             pending_code := none } : PairingState).lockout_until - 1 ∧
    validate_code { pendingState with failed_attempts := 0
                                      lockout_until := (1 : ℚ) + LOCKOUT_DURATION
                                      pending_code := none } 2 "m4" "H" "123456" =
      (none, { pendingState with failed_attempts := 0
                                 lockout_until := (1 : ℚ) + LOCKOUT_DURATION
                                 pending_code := none }) :=
  C5_lockout_after_three_failures pendingState 1 1 1 2
    "m1" "m2" "m3" "m4" "123456" "000000" "111111" "222222" "H"
    (by decide) (by decide) (by decide) (by decide) (by decide) (by decide)
    (by decide) (by decide) (by decide) (by norm_num [LOCKOUT_DURATION])
    (by decide) (by decide) (by decide)

/-- C6 counterexample.  The claim says any 32 received bytes differing
from the minted token make the endpoint send the single byte 0x00.  A
stream of 32 bytes 0xFF differs from the (hex, hence ASCII) token, yet
the source decodes the bytes as ASCII before comparing, so the decode
raises and the connection closes with nothing sent at all. -/
theorem C6_counterexample :
    asciiDecode ((List.replicate 32 255).take TOKEN_LEN) = none ∧
    (tcp_handle_connection tok32 (List.replicate 32 255)).sent = [] ∧
    (tcp_handle_connection tok32 (List.replicate 32 255)).files = [] ∧
    ¬ ((tcp_handle_connection tok32 (List.replicate 32 255)).sent = [0]) := by
  refine ⟨by decide, by decide, by decide, by decide⟩

/-- C6 as amended.  After reading exactly 32 bytes: bytes that are not
all ASCII close the connection with no status byte, no files and total
zero; ASCII bytes differing from the minted token draw the single byte
0x00 and a close with no files and total zero; bytes equal to the token
draw the single byte 0x01, and only then does the file-receive loop
determine the remaining outcome. -/
theorem C6_bulk_auth (token : String) (stream : List Nat)
    (hlen : TOKEN_LEN ≤ stream.length) :
    (asciiDecode (stream.take TOKEN_LEN) = none →
      tcp_handle_connection token stream =
        { sent := [], files := [], total := 0, result := .error .decodeError }) ∧
    (∀ received, asciiDecode (stream.take TOKEN_LEN) = some received →
      String.mk received ≠ token →
      tcp_handle_connection token stream =
        { sent := [0], files := [], total := 0, result := .error .invalidToken }) ∧
    (∀ received, asciiDecode (stream.take TOKEN_LEN) = some received →
      String.mk received = token →
      tcp_handle_connection token stream =
        { sent := [1]
          files := (recv_loop ((stream.drop TOKEN_LEN).length + 1)
            (stream.drop TOKEN_LEN) 0).1
          total := (recv_loop ((stream.drop TOKEN_LEN).length + 1)
            (stream.drop TOKEN_LEN) 0).2.1
          result :=
            match (recv_loop ((stream.drop TOKEN_LEN).length + 1)
              (stream.drop TOKEN_LEN) 0).2.2 with
            | .ok _ => .ok ((recv_loop ((stream.drop TOKEN_LEN).length + 1)
                (stream.drop TOKEN_LEN) 0).2.1)
            | .error e => .error e }) := by
  have hnl : ¬ (stream.length < TOKEN_LEN) := not_lt.mpr hlen
  refine ⟨fun hdec => ?_, fun received hdec hne => ?_, fun received hdec heq => ?_⟩
  · simp only [tcp_handle_connection, if_neg hnl, hdec]
  · simp only [tcp_handle_connection, if_neg hnl, hdec]
    rw [if_neg hne]
  · simp only [tcp_handle_connection, if_neg hnl, hdec]
    rw [if_pos heq]

/-- C6 witness: 32 ASCII bytes (0x62, the letter b) differing from the
token draw the rejection byte via C6_bulk_auth. -/
theorem C6_bulk_auth_witness :
    TOKEN_LEN ≤ (List.replicate 32 98).length ∧
    asciiDecode ((List.replicate 32 98).take TOKEN_LEN) =
      some (List.replicate 32 'b') ∧
    String.mk (List.replicate 32 'b') ≠ tok32 ∧
    tcp_handle_connection tok32 (List.replicate 32 98) =
      { sent := [0], files := [], total := 0, result := .error .invalidToken } :=
  ⟨by decide, by decide, by decide,
   (C6_bulk_auth tok32 (List.replicate 32 98) (by decide)).2.1
     (List.replicate 32 'b') (by decide) (by decide)⟩

/-- C7.  For the console log collector: an entry whose level bit is zero
or masked out leaves the state (buffer and dropped counter) untouched;
an admitted entry arriving with the buffer at its 200-entry cap removes
exactly the oldest entry, appends the new one and bumps dropped by one,
leaving the length at the cap; and from a started collector every
sequence of add_entry calls keeps the buffer at or below 200 entries. -/
theorem C7_console_log_buffer :
    (∀ (st : ConsoleLogState) (c : AddEntryCall),
      levelBits c.level = 0 ∨ st.level_mask &&& levelBits c.level = 0 →
      add_entry st c = st) ∧
    (∀ (st : ConsoleLogState) (c : AddEntryCall),
      ¬ (levelBits c.level = 0 ∨ st.level_mask &&& levelBits c.level = 0) →
      st.buffer.length = MAX_BUFFER_SIZE →
      add_entry st c =
        { st with buffer := st.buffer.drop 1 ++ [mkLogEntry c]
                  dropped := st.dropped + 1 } ∧
      (add_entry st c).buffer.length = MAX_BUFFER_SIZE) ∧
    (∀ (mask : Nat) (calls : List AddEntryCall),
      (run_add_entries (consoleLogStart mask) calls).buffer.length ≤
        MAX_BUFFER_SIZE) := by
  have hstep : ∀ (st : ConsoleLogState) (c : AddEntryCall),
      st.buffer.length ≤ MAX_BUFFER_SIZE →
      (add_entry st c).buffer.length ≤ MAX_BUFFER_SIZE := by
    intro st c hle
    by_cases hmask : levelBits c.level = 0 ∨ st.level_mask &&& levelBits c.level = 0
    · simp [add_entry, hmask, hle]
    · by_cases hcap : MAX_BUFFER_SIZE ≤ st.buffer.length
      · simp only [add_entry]
        rw [if_neg hmask, if_pos hcap]
        simp only [List.length_append, List.length_drop, List.length_cons,
          List.length_nil, MAX_BUFFER_SIZE] at *
        omega
      · simp only [add_entry]
        rw [if_neg hmask, if_neg hcap]
        simp only [List.length_append, List.length_cons, List.length_nil,
          MAX_BUFFER_SIZE] at *
        omega
  refine ⟨fun st c hmask => by simp [add_entry, hmask],
    fun st c hmask hful => ?_, fun mask calls => ?_⟩
  · have hcap : MAX_BUFFER_SIZE ≤ st.buffer.length := le_of_eq hful.symm
    refine ⟨?_, ?_⟩
    · simp only [add_entry]
      rw [if_neg hmask, if_pos hcap]
    · simp only [add_entry]
      rw [if_neg hmask, if_pos hcap]
      simp only [List.length_append, List.length_drop, List.length_cons,
        List.length_nil, MAX_BUFFER_SIZE] at *
      omega
  · have key : ∀ (calls : List AddEntryCall) (st : ConsoleLogState),
        st.buffer.length ≤ MAX_BUFFER_SIZE →
        (run_add_entries st calls).buffer.length ≤ MAX_BUFFER_SIZE := by
      intro calls
      induction calls with
      | nil => intro st hle; exact hle
      | cons c cs ih =>
        intro st hle
        exact ih (add_entry st c) (hstep st c hle)
    exact key calls (consoleLogStart mask) (by simp [consoleLogStart])

set_option maxRecDepth 4000 in
/-- C7 witness: an admitted log-level entry hitting the full fixture
buffer goes through the overflow branch of C7_console_log_buffer. -/
theorem C7_console_log_buffer_witness :
    (¬ (levelBits call0.level = 0 ∨
        st200.level_mask &&& levelBits call0.level = 0)) ∧
    st200.buffer.length = MAX_BUFFER_SIZE ∧
    (add_entry st200 call0 =
      { st200 with buffer := st200.buffer.drop 1 ++ [mkLogEntry call0]
                   dropped := st200.dropped + 1 } ∧
     (add_entry st200 call0).buffer.length = MAX_BUFFER_SIZE) :=
  ⟨by decide, by decide,
   C7_console_log_buffer.2.1 st200 call0 (by decide) (by decide)⟩

/-- Helper for C9: the retry loop consumes at most its fuel in attempts;
when it fails it used exactly the fuel and slept after every attempt,
the sleep after attempt n lasting ICON_RETRY_BASE_DELAY * 2 ^ n seconds;
when it succeeds, no sleep follows the successful attempt and every
earlier attempt slept its backoff delay. -/
theorem vdf_loop_spec (states : Nat → VdfAttempt) (app_id : Nat) :
    ∀ fuel attempt,
      (vdf_loop states app_id fuel attempt).attemptsUsed ≤ fuel ∧
      ((vdf_loop states app_id fuel attempt).success = false →
        (vdf_loop states app_id fuel attempt).attemptsUsed = fuel ∧
        (vdf_loop states app_id fuel attempt).sleeps =
          (List.range' attempt fuel).map
            (fun n => ICON_RETRY_BASE_DELAY * 2 ^ n)) ∧
      ((vdf_loop states app_id fuel attempt).success = true →
        1 ≤ (vdf_loop states app_id fuel attempt).attemptsUsed ∧
        (vdf_loop states app_id fuel attempt).sleeps =
          (List.range' attempt
            ((vdf_loop states app_id fuel attempt).attemptsUsed - 1)).map
            (fun n => ICON_RETRY_BASE_DELAY * 2 ^ n)) := by
  intro fuel
  induction fuel with
  | zero =>
    intro attempt
    simp [vdf_loop]
  | succ fuel ih =>
    intro attempt
    by_cases hok : vdf_attempt_ok states app_id attempt = true
    · simp [vdf_loop, hok]
    · obtain ⟨ih1, ih2, ih3⟩ := ih (attempt + 1)
      simp only [vdf_loop, if_neg hok]
      refine ⟨by omega, fun hs => ?_, fun hs => ?_⟩
      · obtain ⟨ha, hsl⟩ := ih2 hs
        refine ⟨by omega, ?_⟩
        rw [List.range'_succ, List.map_cons, hsl]
      · obtain ⟨ha, hsl⟩ := ih3 hs
        refine ⟨by omega, ?_⟩
        have harith :
            (vdf_loop states app_id fuel (attempt + 1)).attemptsUsed + 1 - 1 =
              ((vdf_loop states app_id fuel (attempt + 1)).attemptsUsed - 1) + 1 := by
          omega
        rw [harith, List.range'_succ, List.map_cons, hsl]

/-- C9.  If the catalog parses on the first attempt, the scan finds an
entry whose derived id equals the requested app id and the write-back
succeeds, then the patcher returns success after exactly one attempt
with no sleep.  In every other case each unsuccessful attempt n is
followed by a sleep of ICON_RETRY_BASE_DELAY * 2 ^ n seconds, the total
number of attempts never exceeds MAX_ICON_RETRIES (five), and an
exhausted run used exactly five attempts with all five sleeps. -/
theorem C9_vdf_patch_backoff (states : Nat → VdfAttempt) (app_id : Nat) :
    (∀ s, states 0 = .parsed s true → vdf_found s app_id = true →
      update_vdf_icon states app_id =
        { success := true, attemptsUsed := 1, sleeps := [] }) ∧
    (update_vdf_icon states app_id).attemptsUsed ≤ MAX_ICON_RETRIES ∧
    ((update_vdf_icon states app_id).success = false →
      (update_vdf_icon states app_id).attemptsUsed = MAX_ICON_RETRIES ∧
      (update_vdf_icon states app_id).sleeps =
        (List.range MAX_ICON_RETRIES).map
          (fun n => ICON_RETRY_BASE_DELAY * 2 ^ n)) ∧
    ((update_vdf_icon states app_id).success = true →
      (update_vdf_icon states app_id).sleeps =
        (List.range ((update_vdf_icon states app_id).attemptsUsed - 1)).map
          (fun n => ICON_RETRY_BASE_DELAY * 2 ^ n)) := by
  obtain ⟨h1, h2, h3⟩ := vdf_loop_spec states app_id MAX_ICON_RETRIES 0
  simp only [update_vdf_icon]
  refine ⟨fun s hs hf => ?_, h1, fun hsf => ?_, fun hst => ?_⟩
  · have hok : vdf_attempt_ok states app_id 0 = true := by
      simp [vdf_attempt_ok, hs, hf]
    simp [update_vdf_icon, MAX_ICON_RETRIES, vdf_loop, hok]
  · obtain ⟨ha, hsl⟩ := h2 hsf
    exact ⟨ha, by rw [hsl, List.range_eq_range']⟩
  · obtain ⟨_, hsl⟩ := h3 hst
    rw [hsl, List.range_eq_range']

/-- C9 witness: a catalog carrying raw appid 5 observed on attempt one
takes the immediate-success branch of C9_vdf_patch_backoff for the
derived id. -/
theorem C9_vdf_patch_backoff_witness :
    vdfStatesFound 0 = .parsed [5] true ∧
    vdf_found [5] (2 ^ 31 + 5) = true ∧
    update_vdf_icon vdfStatesFound (2 ^ 31 + 5) =
      { success := true, attemptsUsed := 1, sleeps := [] } :=
  ⟨rfl, by decide,
   (C9_vdf_patch_backoff vdfStatesFound (2 ^ 31 + 5)).1 [5] rfl (by decide)⟩

/-- C10.  UploadSession.progress is total: with a declared total of zero
it returns exactly one hundred without dividing, and otherwise it
returns transferred over total scaled to percent.  The chunk writer
advances transferred by exactly the chunk length with no cap at the
declared total, so the reported value can exceed one hundred. -/
theorem C10_progress_total :
    (∀ s : UploadSession, s.total_size = 0 → progress s = 100) ∧
    (∀ s : UploadSession, s.total_size ≠ 0 →
      progress s = (s.transferred : ℚ) / (s.total_size : ℚ) * 100) ∧
    (∀ (ups : List (String × UploadSession)) (uid fp : String) (off n : Nat)
      (s : UploadSession), ups.lookup uid = some s →
      ws_write_chunk ups uid fp off n =
        { reply := .chunkResponse n (s.transferred + n)
          wrote := [{ path := posixJoin s.install_path fp, offset := off
                      length := n, truncate := off = 0 }]
          uploads := updateUpload ups uid
            { s with transferred := s.transferred + n
                     current_file := some fp } }) ∧
    (∃ s : UploadSession, s.total_size ≠ 0 ∧ 100 < progress s) := by
  refine ⟨fun s h => by simp [progress, h], fun s h => by simp [progress, h],
    fun ups uid fp off n s h => by simp only [ws_write_chunk, h],
    ⟨{ sessG with transferred := 25 }, by decide, ?_⟩⟩
  norm_num [progress, sessG]

/-- C10 witness: the nonzero-total branch and the uncapped chunk step of
C10_progress_total at the fixture session. -/
theorem C10_progress_total_witness :
    sessG.total_size ≠ 0 ∧
    progress sessG = (sessG.transferred : ℚ) / (sessG.total_size : ℚ) * 100 ∧
    upsG.lookup "u1" = some sessG ∧
    ws_write_chunk upsG "u1" "g.exe" 0 7 =
      { reply := .chunkResponse 7 (sessG.transferred + 7)
        wrote := [{ path := posixJoin sessG.install_path "g.exe", offset := 0
                    length := 7, truncate := (0 : Nat) = 0 }]
        uploads := updateUpload upsG "u1"
          { sessG with transferred := sessG.transferred + 7
                       current_file := some "g.exe" } } :=
  ⟨by decide, C10_progress_total.2.1 sessG (by decide), by decide,
   C10_progress_total.2.2.1 upsG "u1" "g.exe" 0 7 sessG (by decide)⟩

/-! ### Lemmas for C8: idempotence of safe-path validation

The development shows that posixpath.normpath is idempotent on relative
inputs: the component loop emits only nonempty, non-dot, slash-free
components whose dot-dot entries form a leading run, joining and
re-splitting such a list is the identity, and the component loop fixes
any list of that shape.
-/

theorem getLast?_mem_of_eq_some {α : Type} {l : List α} {x : α}
    (h : l.getLast? = some x) : x ∈ l := by
  have hne : l ≠ [] := by intro e; subst e; simp at h
  rw [List.getLast?_eq_getLast l hne] at h
  exact (Option.some.inj h) ▸ List.getLast_mem hne

theorem getLast?_append_right {α : Type} (l1 : List α) {l2 : List α}
    (h : l2 ≠ []) : (l1 ++ l2).getLast? = l2.getLast? := by
  rw [List.getLast?_append]
  cases hl : l2.getLast? with
  | none => exact absurd (List.getLast?_eq_none_iff.mp hl) h
  | some x => rfl

theorem getLast?_replicate_pos {α : Type} (k : Nat) (a : α) (h : 0 < k) :
    (List.replicate k a).getLast? = some a := by
  cases k with
  | zero => omega
  | succ k =>
    rw [List.replicate_succ' k a, List.getLast?_append]
    rfl

theorem splitSlash_ne_nil : ∀ p : List Char, splitSlash p ≠ []
  | [] => by simp [splitSlash]
  | c :: cs => by
    unfold splitSlash
    by_cases h : c = '/'
    · simp [h]
    · rw [if_neg h]
      cases hs : splitSlash cs with
      | nil => simp
      | cons t ts => simp

theorem splitSlash_no_slash : ∀ (p : List Char) (x : List Char),
    x ∈ splitSlash p → '/' ∉ x
  | [], x, hx => by
    simp [splitSlash] at hx
    subst hx
    simp
  | c :: cs, x, hx => by
    unfold splitSlash at hx
    by_cases h : c = '/'
    · rw [if_pos h] at hx
      rcases List.mem_cons.mp hx with rfl | hx
      · simp
      · exact splitSlash_no_slash cs x hx
    · rw [if_neg h] at hx
      cases hs : splitSlash cs with
      | nil => exact absurd hs (splitSlash_ne_nil cs)
      | cons t ts =>
        rw [hs] at hx
        rcases List.mem_cons.mp hx with rfl | hx
        · intro hmem
          rcases List.mem_cons.mp hmem with he | hmem
          · exact h he.symm
          · have ht : t ∈ splitSlash cs := by rw [hs]; exact List.mem_cons_self t ts
            exact splitSlash_no_slash cs t ht hmem
        · have hxs : x ∈ splitSlash cs := by rw [hs]; exact List.mem_cons_of_mem t hx
          exact splitSlash_no_slash cs x hxs

theorem splitSlash_of_no_slash : ∀ c : List Char, '/' ∉ c → splitSlash c = [c]
  | [], _ => rfl
  | a :: c, h => by
    have ha : a ≠ '/' := fun e => h (e ▸ List.mem_cons_self a c)
    have hc : '/' ∉ c := fun hm => h (List.mem_cons_of_mem a hm)
    unfold splitSlash
    rw [if_neg ha, splitSlash_of_no_slash c hc]

theorem splitSlash_append_slash : ∀ (c r : List Char), '/' ∉ c →
    splitSlash (c ++ '/' :: r) = c :: splitSlash r
  | [], r, _ => by simp [splitSlash]
  | a :: c, r, h => by
    have ha : a ≠ '/' := fun e => h (e ▸ List.mem_cons_self a c)
    have hc : '/' ∉ c := fun hm => h (List.mem_cons_of_mem a hm)
    have ih := splitSlash_append_slash c r hc
    show splitSlash (a :: (c ++ '/' :: r)) = (a :: c) :: splitSlash r
    simp only [splitSlash, if_neg ha, ih]

theorem splitSlash_joinSlash : ∀ comps : List (List Char), comps ≠ [] →
    (∀ x ∈ comps, '/' ∉ x) → splitSlash (joinSlash comps) = comps
  | [], h, _ => absurd rfl h
  | [c], _, hall => by
    rw [joinSlash]
    exact splitSlash_of_no_slash c (hall c (List.mem_cons_self c []))
  | c :: c2 :: cs, _, hall => by
    show splitSlash (c ++ '/' :: joinSlash (c2 :: cs)) = c :: c2 :: cs
    rw [splitSlash_append_slash c _ (hall c (List.mem_cons_self c _))]
    rw [splitSlash_joinSlash (c2 :: cs) (by simp)
      (fun x hx => hall x (List.mem_cons_of_mem c hx))]

theorem normStep_preserves (acc : List (List Char)) (c : List Char)
    (hacc : ∀ x ∈ acc, GoodComp x) (hN : NormalAcc acc) (hc : '/' ∉ c) :
    (∀ x ∈ normStep 0 acc c, GoodComp x) ∧ NormalAcc (normStep 0 acc c) := by
  unfold normStep
  by_cases h1 : c = [] ∨ c = ['.']
  · rw [if_pos h1]
    exact ⟨hacc, hN⟩
  · rw [if_neg h1]
    push_neg at h1
    by_cases h2 : c ≠ dotdot ∨ (0 = 0 ∧ acc = []) ∨ acc.getLast? = some dotdot
    · rw [if_pos h2]
      refine ⟨?_, ?_⟩
      · intro x hx
        rcases List.mem_append.mp hx with hx | hx
        · exact hacc x hx
        · rw [List.mem_singleton.mp hx]
          exact ⟨h1.1, h1.2, hc⟩
      · obtain ⟨k, rest, hl, hrest⟩ := hN
        by_cases hdd : c = dotdot
        · subst hdd
          rcases h2 with h2 | h2 | h2
          · exact absurd rfl h2
          · refine ⟨1, [], ?_, by simp⟩
            rw [h2.2]
            rfl
          · have hrest_nil : rest = [] := by
              by_contra hne
              rw [hl, getLast?_append_right _ hne] at h2
              exact hrest dotdot (getLast?_mem_of_eq_some h2) rfl
            refine ⟨k + 1, [], ?_, by simp⟩
            rw [hl, hrest_nil, List.append_nil, List.append_nil,
              List.replicate_succ' k dotdot]
        · refine ⟨k, rest ++ [c], by rw [hl, List.append_assoc], ?_⟩
          intro x hx
          rcases List.mem_append.mp hx with hx | hx
          · exact hrest x hx
          · rw [List.mem_singleton.mp hx]
            exact hdd
    · rw [if_neg h2]
      push_neg at h2
      obtain ⟨hcdd, hne, hlast⟩ := h2
      have haccne : acc ≠ [] := hne rfl
      refine ⟨?_, ?_⟩
      · intro x hx
        exact hacc x (List.dropLast_subset acc hx)
      · obtain ⟨k, rest, hl, hrest⟩ := hN
        have hrestne : rest ≠ [] := by
          intro hr
          rw [hl, hr, List.append_nil] at hlast haccne
          have hk : 0 < k := by
            rcases Nat.eq_zero_or_pos k with hk | hk
            · rw [hk] at haccne; simp at haccne
            · exact hk
          exact hlast (getLast?_replicate_pos k dotdot hk)
        refine ⟨k, rest.dropLast, ?_, ?_⟩
        · rw [hl, List.dropLast_append_of_ne_nil _ hrestne]
        · intro x hx
          exact hrest x (List.dropLast_subset rest hx)

theorem normComps_invariant : ∀ (comps acc : List (List Char)),
    (∀ x ∈ acc, GoodComp x) → NormalAcc acc → (∀ x ∈ comps, '/' ∉ x) →
    (∀ x ∈ comps.foldl (normStep 0) acc, GoodComp x) ∧
      NormalAcc (comps.foldl (normStep 0) acc)
  | [], acc, hacc, hN, _ => ⟨hacc, hN⟩
  | c :: cs, acc, hacc, hN, hall => by
    rw [List.foldl_cons]
    obtain ⟨hacc2, hN2⟩ :=
      normStep_preserves acc c hacc hN (hall c (List.mem_cons_self c cs))
    exact normComps_invariant cs (normStep 0 acc c) hacc2 hN2
      (fun x hx => hall x (List.mem_cons_of_mem c hx))

theorem foldl_normStep_no_dotdot : ∀ (rest acc : List (List Char)),
    (∀ x ∈ rest, x ≠ [] ∧ x ≠ ['.'] ∧ x ≠ dotdot) →
    rest.foldl (normStep 0) acc = acc ++ rest
  | [], acc, _ => by simp
  | c :: cs, acc, hall => by
    rw [List.foldl_cons]
    have hc := hall c (List.mem_cons_self c cs)
    have hstep : normStep 0 acc c = acc ++ [c] := by
      unfold normStep
      rw [if_neg (by push_neg; exact ⟨hc.1, hc.2.1⟩), if_pos (Or.inl hc.2.2)]
    rw [hstep, foldl_normStep_no_dotdot cs (acc ++ [c])
      (fun x hx => hall x (List.mem_cons_of_mem c hx))]
    simp

theorem foldl_normStep_dotdots : ∀ (k j : Nat),
    (List.replicate k dotdot).foldl (normStep 0) (List.replicate j dotdot) =
      List.replicate (j + k) dotdot
  | 0, j => by simp
  | k + 1, j => by
    rw [List.replicate_succ, List.foldl_cons]
    have hstep : normStep 0 (List.replicate j dotdot) dotdot =
        List.replicate (j + 1) dotdot := by
      unfold normStep
      rw [if_neg (by decide), if_pos ?side]
      · rw [List.replicate_succ' j dotdot]
      case side =>
        rcases Nat.eq_zero_or_pos j with hj | hj
        · exact Or.inr (Or.inl ⟨rfl, by rw [hj]; rfl⟩)
        · exact Or.inr (Or.inr (getLast?_replicate_pos j dotdot hj))
    rw [hstep, foldl_normStep_dotdots k (j + 1)]
    congr 1
    omega

theorem normComps_fixed (l : List (List Char))
    (hgood : ∀ x ∈ l, x ≠ [] ∧ x ≠ ['.']) (hN : NormalAcc l) :
    normComps 0 l = l := by
  obtain ⟨k, rest, hl, hrest⟩ := hN
  subst hl
  unfold normComps
  rw [List.foldl_append]
  have h1 : (List.replicate k dotdot).foldl (normStep 0) [] =
      List.replicate k dotdot := by
    have := foldl_normStep_dotdots k 0
    simpa using this
  rw [h1, foldl_normStep_no_dotdot rest (List.replicate k dotdot) ?hrest]
  case hrest =>
    intro x hx
    have hg := hgood x (List.mem_append.mpr (Or.inr hx))
    exact ⟨hg.1, hg.2, hrest x hx⟩

theorem initialSlashes_eq_zero (p : List Char) (h : isAbs p = false) :
    initialSlashes p = 0 := by
  cases p with
  | nil => rfl
  | cons c cs =>
    have hc : c ≠ '/' := by
      intro e
      rw [e] at h
      simp [isAbs] at h
    unfold initialSlashes
    split <;> simp_all

theorem joinSlash_ne_nil (t : List Char) (ts : List (List Char))
    (ht : t ≠ []) : joinSlash (t :: ts) ≠ [] := by
  cases ts with
  | nil => exact ht
  | cons t2 ts2 =>
    show t ++ '/' :: joinSlash (t2 :: ts2) ≠ []
    simp

theorem joinSlash_not_abs (t : List Char) (ts : List (List Char))
    (ht : t ≠ []) (hs : '/' ∉ t) : isAbs (joinSlash (t :: ts)) = false := by
  cases t with
  | nil => exact absurd rfl ht
  | cons a t' =>
    have ha : a ≠ '/' := fun e => hs (e ▸ List.mem_cons_self a t')
    cases ts with
    | nil => simp [joinSlash, isAbs, ha]
    | cons t2 ts2 =>
      show isAbs ((a :: t') ++ '/' :: joinSlash (t2 :: ts2)) = false
      simp [isAbs, ha]

theorem normpath_ne_nil (p : List Char) : normpath p ≠ [] := by
  unfold normpath
  split
  · simp
  · dsimp only
    split
    · simp
    · next h => exact h

theorem normpath_rel (p : List Char) (hne : p ≠ []) (habs : isAbs p = false) :
    normpath p =
      if joinSlash (normComps 0 (splitSlash p)) = [] then ['.']
      else joinSlash (normComps 0 (splitSlash p)) := by
  unfold normpath
  rw [if_neg hne, initialSlashes_eq_zero p habs]
  simp

theorem normComps_splitSlash_good (p : List Char) :
    (∀ x ∈ normComps 0 (splitSlash p), GoodComp x) ∧
      NormalAcc (normComps 0 (splitSlash p)) :=
  normComps_invariant (splitSlash p) [] (by simp) ⟨0, [], rfl, by simp⟩
    (splitSlash_no_slash p)

theorem normpath_rel_not_abs (p : List Char) (hne : p ≠ [])
    (habs : isAbs p = false) : isAbs (normpath p) = false := by
  rw [normpath_rel p hne habs]
  obtain ⟨hgood, _⟩ := normComps_splitSlash_good p
  cases hnc : normComps 0 (splitSlash p) with
  | nil => simp [joinSlash, isAbs]
  | cons t ts =>
    have ht : GoodComp t := hgood t (by rw [hnc]; exact List.mem_cons_self t ts)
    rw [if_neg (joinSlash_ne_nil t ts ht.1)]
    exact joinSlash_not_abs t ts ht.1 ht.2.2

theorem normpath_idem (p : List Char) (hne : p ≠ [])
    (habs : isAbs p = false) : normpath (normpath p) = normpath p := by
  obtain ⟨hgood, hN⟩ := normComps_splitSlash_good p
  rw [normpath_rel p hne habs]
  cases hnc : normComps 0 (splitSlash p) with
  | nil => decide
  | cons t ts =>
    rw [hnc] at hgood hN
    have ht : GoodComp t := hgood t (List.mem_cons_self t ts)
    have hjne : joinSlash (t :: ts) ≠ [] := joinSlash_ne_nil t ts ht.1
    rw [if_neg hjne]
    have habs2 : isAbs (joinSlash (t :: ts)) = false :=
      joinSlash_not_abs t ts ht.1 ht.2.2
    rw [normpath_rel (joinSlash (t :: ts)) hjne habs2]
    rw [splitSlash_joinSlash (t :: ts) (by simp)
      (fun x hx => (hgood x hx).2.2)]
    rw [normComps_fixed (t :: ts) (fun x hx => ⟨(hgood x hx).1, (hgood x hx).2.1⟩) hN]
    rw [if_neg hjne]

/-- C8.  Safe-path validation is idempotent under normalization: every
path string the safe-path validator accepts is still accepted after
being replaced by its normalized form. -/
theorem C8_safe_path_idempotent (p : String) (hv : safePathOk p = true) :
    safePathOk (String.mk (normpath p.data)) = true := by
  unfold safePathOk validate_safe_path at hv
  by_cases h1 : p.data = []
  · rw [if_pos h1] at hv
    simp at hv
  rw [if_neg h1] at hv
  by_cases h2 : isAbs p.data = true
  · rw [if_pos h2] at hv
    simp at hv
  rw [if_neg h2] at hv
  by_cases h3 : normpath p.data = dotdot ∨
      (dotdot ++ ['/']).isPrefixOf (normpath p.data)
  · rw [if_pos h3] at hv
    simp at hv
  have habs : isAbs p.data = false := Bool.not_eq_true _ ▸ eq_false_of_ne_true h2
  unfold safePathOk validate_safe_path
  have hd : (String.mk (normpath p.data)).data = normpath p.data := rfl
  rw [hd]
  rw [if_neg (normpath_ne_nil p.data)]
  rw [if_neg (by rw [normpath_rel_not_abs p.data h1 habs]; simp)]
  rw [if_neg (by rw [normpath_idem p.data h1 habs]; exact h3)]

/-- C8 witness: the accepted relative path a/./b normalizes to a/b,
which the validator accepts again. -/
theorem C8_safe_path_idempotent_witness :
    safePathOk "a/./b" = true ∧
    safePathOk (String.mk (normpath "a/./b".data)) = true :=
  ⟨by decide, C8_safe_path_idempotent "a/./b" (by decide)⟩
